import Mathlib

/-!
Shallow embedding of the nostria-metadata relay-query resolution engine
(`services/nostrService.js`, class `NostrService`) and of the boundary-layer
TTL cache (`index.js`, class `MemoryCache`).

JavaScript string builtins used by the source (`String.prototype.split(',')`,
`trim`, `startsWith`) are embedded as structurally recursive functions over
the character list of a `String`, so that every definition evaluates by
kernel reduction.  The relay pool (`pool.get`) is abstracted as an explicit
query-function parameter; `Date.now()` is an explicit `now : Nat` parameter;
the mutable `profileCache` (a JS `Map`) is threaded as an association list.
-/

namespace Nostria

/-! ## JS string builtins -/

/-- `String.prototype.split(',')` on the character level: splitting an empty
string yields `[[]]`, i.e. `""` splits to `[""]`, exactly as in JS. -/
def splitCommaChars : List Char → List (List Char)
  | [] => [[]]
  | c :: cs =>
    if c = ',' then [] :: splitCommaChars cs
    else
      match splitCommaChars cs with
      | [] => [[c]]
      | r :: rs => (c :: r) :: rs

/-- `String.prototype.trim`: drop whitespace from both ends. -/
def trimChars (cs : List Char) : List Char :=
  ((cs.dropWhile Char.isWhitespace).reverse.dropWhile Char.isWhitespace).reverse

/-- `String.prototype.startsWith` on the character level. -/
def charsStartWith : List Char → List Char → Bool
  | _, [] => true
  | [], _ :: _ => false
  | c :: cs, p :: ps => c = p && charsStartWith cs ps

/-- `s.split(',')` of the source. -/
def jsSplitOnComma (s : String) : List String :=
  (splitCommaChars s.data).map (fun cs => String.mk cs)

/-- `s.trim()` of the source. -/
def jsTrim (s : String) : String := String.mk (trimChars s.data)

/-- `s.startsWith(p)` of the source. -/
def jsStartsWith (s p : String) : Bool := charsStartWith s.data p.data

/-! ## JS `Set` iteration order dedup (`[...new Set(l)]`)

A JS `Set` keeps first-occurrence insertion order; `dedupeFirstAux` carries
the set of already-seen elements. -/

def dedupeFirstAux (seen : List String) : List String → List String
  | [] => []
  | x :: xs =>
    if seen.contains x then dedupeFirstAux seen xs
    else x :: dedupeFirstAux (x :: seen) xs

/-- `[...new Set(l)]` of the source. -/
def dedupeFirst (l : List String) : List String := dedupeFirstAux [] l

/-! ## JS `Map` as an association list (only `get`/`set`/`delete` are used
by the embedded code; iteration order is never observed). -/

def mapGet {α : Type} (m : List (String × α)) (k : String) : Option α :=
  (m.find? (fun p => p.1 = k)).map (fun p => p.2)

def mapDelete {α : Type} (m : List (String × α)) (k : String) : List (String × α) :=
  m.filter (fun p => p.1 ≠ k)

def mapSet {α : Type} (m : List (String × α)) (k : String) (v : α) :
    List (String × α) :=
  (k, v) :: mapDelete m k

/-! ## Data model -/

/-- A relay response payload (nostr event).  Only the fields the engine
reads (`id`, `pubkey`, `kind`, `content`) are modelled; the rest is opaque. -/
structure Record where
  id : String
  pubkey : String
  kind : Int
  content : String
deriving DecidableEq

/-- Parsed profile content: a JSON object modelled as key/value pairs.
`JSON.parse` itself is abstracted as a parameter of type `JsonParse`. -/
abbrev ProfileData := List (String × String)

/-- `JSON.parse` abstraction: `none` models a parse exception. -/
abbrev JsonParse := String → Option ProfileData

/-- The value built by `getProfile`: `{...profileEvent, profile: profileData}`. -/
structure ProfileResult where
  record : Record
  profile : ProfileData
deriving DecidableEq

/-- An event as returned by `getEvent`/`getArticle`, with the optional
`author` field attached by enrichment (`event.author = authorProfile`). -/
structure EnrichedEvent where
  record : Record
  author : Option ProfileResult
deriving DecidableEq

/-- A `profileCache` entry: `{value, timestamp}` as stored by
`setCachedProfile`. -/
structure CachedProfile where
  value : ProfileResult
  timestamp : Nat
deriving DecidableEq

/-- The `NostrService` instance state (the pool object itself is abstracted
away; queries go through an explicit `QueryFn`). -/
structure Service where
  defaultEventRelays : List String
  defaultProfileRelays : List String
  timeout : Nat
  profileTimeout : Nat
  retryTimeout : Nat
  profileCacheTtlMs : Nat
  profileCache : List (String × CachedProfile)
deriving DecidableEq

/-- The three query filter shapes sent to relays. -/
inductive Filter where
  | byId (id : String)
  | profileOf (pubkey : String)
  | article (author : String) (kind : Int) (identifier : String)
deriving DecidableEq

/-- `pool.get(relays, filter, {timeout})` abstracted: `Except.error` models a
thrown transport error, `Except.ok none` models "not found". -/
abbrev QueryFn := List String → Filter → Nat → Except String (Option Record)

/-- Error taxonomy at the engine boundary: precondition failures
(`throw new Error('... is required')`) versus propagated transport errors. -/
inductive Err where
  | precondition (msg : String)
  | transport (msg : String)
deriving DecidableEq

/-- Whether a resolution outcome is a precondition failure. -/
def Err.isPrecondition : Err → Bool
  | .precondition _ => true
  | .transport _ => false

/-- Whether an `Except Err` outcome is a precondition failure. -/
def isPreconditionFailure {α : Type} : Except Err α → Bool
  | .error e => e.isPrecondition
  | .ok _ => false

/-! ## NostrService methods -/

/-- `parseRelayList(relaysString, fallbackRelays)`: the configured CSV string
is used when truthy (non-empty), else the fallback list; the chosen source is
trimmed, filtered to `wss://`/`ws://` entries, and deduplicated. -/
def parseRelayList (relaysString : String) (fallbackRelays : List String) :
    List String :=
  let source := if relaysString = "" then fallbackRelays
                else jsSplitOnComma relaysString
  dedupeFirst ((source.map jsTrim).filter
    (fun relay => jsStartsWith relay "wss://" || jsStartsWith relay "ws://"))

/-- `getAllKnownRelays()`. -/
def getAllKnownRelays (svc : Service) : List String :=
  dedupeFirst (svc.defaultEventRelays ++ svc.defaultProfileRelays)

/-- Relay list purpose selector (`type === 'profile'`). -/
inductive RelayPurpose where
  | event
  | profile
deriving DecidableEq

/-- `buildRelayList(relayHints, type)`. -/
def buildRelayList (svc : Service) (relayHints : List String)
    (purpose : RelayPurpose) : List String :=
  let baseRelays := if purpose = .profile then svc.defaultProfileRelays
                    else svc.defaultEventRelays
  dedupeFirst (relayHints ++ baseRelays)

/-- `getCachedProfile(pubkey)`, with `Date.now()` passed as `now`.  Returns
the visible value (if any) and the service state after the lazy eviction. -/
def getCachedProfile (svc : Service) (now : Nat) (pubkey : String) :
    Option ProfileResult × Service :=
  match mapGet svc.profileCache pubkey with
  | none => (none, svc)
  | some cached =>
    if now - cached.timestamp > svc.profileCacheTtlMs then
      (none, { svc with profileCache := mapDelete svc.profileCache pubkey })
    else
      (some cached.value, svc)

/-- `setCachedProfile(pubkey, profile)`. -/
def setCachedProfile (svc : Service) (now : Nat) (pubkey : String)
    (profile : ProfileResult) : Service :=
  let entry : CachedProfile := { value := profile, timestamp := now }
  { svc with profileCache := mapSet svc.profileCache pubkey entry }

/-- `fetchFromRelays(relays, filter, timeoutMs)`: a single `pool.get` call,
abstracted by the query function `q`. -/
def fetchFromRelays (q : QueryFn) (relays : List String) (filter : Filter)
    (timeoutMs : Nat) : Except String (Option Record) :=
  q relays filter timeoutMs

/-- `fetchWithRetry(relays, filter, timeoutMs, contextLabel)`; the second
component counts the `pool.get` calls issued. -/
def fetchWithRetry (svc : Service) (q : QueryFn) (relays : List String)
    (filter : Filter) (timeoutMs : Nat) :
    Except String (Option Record) × Nat :=
  match fetchFromRelays q relays filter timeoutMs with
  | .error e => (.error e, 1)
  | .ok (some r) => (.ok (some r), 1)
  | .ok none =>
    let allRelays := getAllKnownRelays svc
    let retryRelays := dedupeFirst (relays ++ allRelays)
    if retryRelays.length ≤ relays.length then (.ok none, 1)
    else (fetchFromRelays q retryRelays filter svc.retryTimeout, 2)

/-- The `try { JSON.parse } catch { profileData = {} }` step of
`getProfile`: a parse exception degrades to the empty object. -/
def profileDataOf (parseJson : JsonParse) (content : String) : ProfileData :=
  match parseJson content with
  | some d => d
  | none => []

/-- `getProfile(pubkey, relayHints)`.  Returns the outcome, the service
state (cache effects), and the number of `pool.get` calls issued. -/
def getProfile (svc : Service) (q : QueryFn) (parseJson : JsonParse)
    (now : Nat) (pubkey : String) (relayHints : List String) :
    Except Err (Option ProfileResult) × Service × Nat :=
  if pubkey = "" then (.error (.precondition "pubkey is required"), svc, 0)
  else
    match getCachedProfile svc now pubkey with
    | (some cachedProfile, svc1) => (.ok (some cachedProfile), svc1, 0)
    | (none, svc1) =>
      match fetchWithRetry svc1 q (buildRelayList svc1 relayHints .profile)
          (.profileOf pubkey) svc1.profileTimeout with
      | (.error e, n) => (.error (.transport e), svc1, n)
      | (.ok none, n) => (.ok none, svc1, n)
      | (.ok (some profileEvent), n) =>
        let result : ProfileResult :=
          { record := profileEvent,
            profile := profileDataOf parseJson profileEvent.content }
        (.ok (some result), setCachedProfile svc1 now pubkey result, n)

/-- `getEvent(eventId, relayHints)`.  The author-profile enrichment absorbs
sub-resolution failures (`event.author` set only on success). -/
def getEvent (svc : Service) (q : QueryFn) (parseJson : JsonParse)
    (now : Nat) (eventId : String) (relayHints : List String) :
    Except Err (Option EnrichedEvent) × Service × Nat :=
  if eventId = "" then (.error (.precondition "eventId is required"), svc, 0)
  else
    match fetchWithRetry svc q (buildRelayList svc relayHints .event)
        (.byId eventId) svc.timeout with
    | (.error e, n) => (.error (.transport e), svc, n)
    | (.ok none, n) => (.ok none, svc, n)
    | (.ok (some event), n) =>
      if event.pubkey ≠ "" then
        match getProfile svc q parseJson now event.pubkey relayHints with
        | (.ok authorProfile, svc1, m) =>
          (.ok (some { record := event, author := authorProfile }),
            svc1, n + m)
        | (.error _, svc1, m) =>
          (.ok (some { record := event, author := none }), svc1, n + m)
      else (.ok (some { record := event, author := none }), svc, n)

/-- The `.catch((error) => { ...; return null })` attached to the
author-profile promise of `getArticle`: failures are absorbed to `null`. -/
def absorbProfileFailure (outcome : Except Err (Option ProfileResult)) :
    Option ProfileResult :=
  match outcome with
  | .ok p => p
  | .error _ => none

/-- `getArticle(author, identifier, kind, relayHints)`.  The author-profile
promise is launched before the article fetch and its failure is absorbed by
the attached `.catch` (modelled by `absorbProfileFailure`); both branches
are joined before returning. -/
def getArticle (svc : Service) (q : QueryFn) (parseJson : JsonParse)
    (now : Nat) (author : String) (identifier : String) (kind : Int)
    (relayHints : List String) :
    Except Err (Option EnrichedEvent) × Service × Nat :=
  if author = "" ∨ identifier = "" ∨ kind = 0 then
    (.error (.precondition "author, identifier and kind are required"), svc, 0)
  else
    match getProfile svc q parseJson now author relayHints with
    | (profileOutcome, svc1, m) =>
      match fetchWithRetry svc1 q (buildRelayList svc relayHints .event)
          (.article author kind identifier) svc1.timeout with
      | (.error e, n) => (.error (.transport e), svc1, m + n)
      | (.ok none, n) => (.ok none, svc1, m + n)
      | (.ok (some event), n) =>
        let enriched : EnrichedEvent :=
          { record := event, author := absorbProfileFailure profileOutcome }
        (.ok (some enriched), svc1, m + n)

/-! ## MemoryCache (`index.js`) -/

/-- A `MemoryCache` entry: `{value, expiresAt}`. -/
structure MCEntry (V : Type) where
  value : V
  expiresAt : Nat
deriving DecidableEq

/-- The `MemoryCache` store (a JS `Map`). -/
abbrev MemoryCache (V : Type) := List (String × MCEntry V)

/-- `MemoryCache.set(key, value, ttl)` with `Date.now()` passed as `now`. -/
def MemoryCache.set {V : Type} (c : MemoryCache V) (key : String) (value : V)
    (ttl : Nat) (now : Nat) : MemoryCache V :=
  mapSet c key { value := value, expiresAt := now + ttl }

/-- `MemoryCache.get(key)` with `Date.now()` passed as `now`: returns the
visible value (if any) and the store after the lazy eviction. -/
def MemoryCache.get {V : Type} (c : MemoryCache V) (key : String)
    (now : Nat) : Option V × MemoryCache V :=
  match mapGet c key with
  | none => (none, c)
  | some cached =>
    if now > cached.expiresAt then (none, mapDelete c key)
    else (some cached.value, c)

/-! ## Helper lemmas -/

theorem contains_mem (seen : List String) (x : String) :
    seen.contains x = true ↔ x ∈ seen := by
  simp [List.contains, List.elem_iff]

theorem mem_dedupeFirstAux (a : String) (l : List String) :
    ∀ seen, a ∈ dedupeFirstAux seen l ↔ a ∈ l ∧ a ∉ seen := by
  induction l with
  | nil => intro seen; simp [dedupeFirstAux]
  | cons x xs ih =>
    intro seen
    rw [dedupeFirstAux]
    by_cases hx : x ∈ seen
    · rw [if_pos ((contains_mem seen x).mpr hx)]
      rw [ih]
      simp only [List.mem_cons]
      constructor
      · rintro ⟨h1, h2⟩; exact ⟨Or.inr h1, h2⟩
      · rintro ⟨h1 | h1, h2⟩
        · exact absurd (h1 ▸ hx) h2
        · exact ⟨h1, h2⟩
    · rw [if_neg (fun hc => hx ((contains_mem seen x).mp hc))]
      simp only [List.mem_cons, ih]
      constructor
      · rintro (rfl | ⟨h1, h2⟩)
        · exact ⟨Or.inl rfl, hx⟩
        · exact ⟨Or.inr h1, fun hm => h2 (Or.inr hm)⟩
      · rintro ⟨h1 | h1, h2⟩
        · exact Or.inl h1
        · by_cases hax : a = x
          · exact Or.inl hax
          · exact Or.inr ⟨h1, fun hm => hm.elim hax h2⟩

theorem mem_dedupeFirst (a : String) (l : List String) :
    a ∈ dedupeFirst l ↔ a ∈ l := by
  rw [dedupeFirst, mem_dedupeFirstAux]
  simp

theorem nodup_dedupeFirstAux (l : List String) :
    ∀ seen, (dedupeFirstAux seen l).Nodup := by
  induction l with
  | nil => intro seen; simp [dedupeFirstAux]
  | cons x xs ih =>
    intro seen
    rw [dedupeFirstAux]
    by_cases hx : x ∈ seen
    · rw [if_pos ((contains_mem seen x).mpr hx)]; exact ih seen
    · rw [if_neg (fun hc => hx ((contains_mem seen x).mp hc))]
      refine List.nodup_cons.mpr ⟨fun hm => ?_, ih (x :: seen)⟩
      exact ((mem_dedupeFirstAux x xs (x :: seen)).mp hm).2 (List.mem_cons_self x seen)

theorem nodup_dedupeFirst (l : List String) : (dedupeFirst l).Nodup :=
  nodup_dedupeFirstAux l []

theorem dedupeFirstAux_eq_nil (l : List String) :
    ∀ seen, (∀ a ∈ l, a ∈ seen) → dedupeFirstAux seen l = [] := by
  induction l with
  | nil => intro seen _; rfl
  | cons x xs ih =>
    intro seen h
    rw [dedupeFirstAux,
      if_pos ((contains_mem seen x).mpr (h x (List.mem_cons_self x xs)))]
    exact ih seen (fun a ha => h a (List.mem_cons_of_mem _ ha))

theorem dedupeFirstAux_append (l₁ l₂ : List String) :
    ∀ seen, (∀ a ∈ l₂, a ∈ l₁ ∨ a ∈ seen) →
      dedupeFirstAux seen (l₁ ++ l₂) = dedupeFirstAux seen l₁ := by
  induction l₁ with
  | nil =>
    intro seen h
    rw [List.nil_append]
    exact dedupeFirstAux_eq_nil l₂ seen
      (fun a ha => (h a ha).resolve_left (fun hc => (List.not_mem_nil a) hc))
  | cons x xs ih =>
    intro seen h
    rw [List.cons_append, dedupeFirstAux, dedupeFirstAux]
    by_cases hx : x ∈ seen
    · simp only [if_pos ((contains_mem seen x).mpr hx)]
      refine ih seen (fun a ha => ?_)
      rcases h a ha with h1 | h1
      · rcases List.mem_cons.mp h1 with h2 | h2
        · exact Or.inr (h2 ▸ hx)
        · exact Or.inl h2
      · exact Or.inr h1
    · simp only [if_neg (fun hc => hx ((contains_mem seen x).mp hc))]
      refine congrArg (x :: ·) (ih (x :: seen) (fun a ha => ?_))
      rcases h a ha with h1 | h1
      · rcases List.mem_cons.mp h1 with h2 | h2
        · exact Or.inr (h2 ▸ List.mem_cons_self x seen)
        · exact Or.inl h2
      · exact Or.inr (List.mem_cons_of_mem _ h1)

theorem dedupeFirst_append_self (l : List String) :
    dedupeFirst (l ++ l) = dedupeFirst l :=
  dedupeFirstAux_append l l [] (fun _ ha => Or.inl ha)

theorem dedupeFirstAux_eq_self (l : List String) :
    ∀ seen, l.Nodup → (∀ a ∈ l, a ∉ seen) → dedupeFirstAux seen l = l := by
  induction l with
  | nil => intro seen _ _; rfl
  | cons x xs ih =>
    intro seen hnd hdisj
    rw [dedupeFirstAux,
      if_neg (fun hc =>
        hdisj x (List.mem_cons_self x xs) ((contains_mem seen x).mp hc))]
    refine congrArg (x :: ·) (ih (x :: seen) (List.nodup_cons.mp hnd).2
      (fun a ha hm => ?_))
    rcases List.mem_cons.mp hm with h1 | h1
    · exact (List.nodup_cons.mp hnd).1 (h1 ▸ ha)
    · exact hdisj a (List.mem_cons_of_mem _ ha) h1

theorem dedupeFirst_eq_self (l : List String) (h : l.Nodup) :
    dedupeFirst l = l :=
  dedupeFirstAux_eq_self l [] h (fun a _ hm => (List.not_mem_nil a) hm)

theorem mapGet_mapSet_self {α : Type} (m : List (String × α)) (k : String)
    (v : α) : mapGet (mapSet m k v) k = some v := by
  simp [mapGet, mapSet, List.find?]

theorem mapGet_cons_ne {α : Type} (p : String × α) (m : List (String × α))
    (k : String) (h : p.1 ≠ k) : mapGet (p :: m) k = mapGet m k := by
  rw [mapGet, mapGet, List.find?_cons_of_neg]
  simp [h]

theorem mapGet_mapDelete_self {α : Type} (m : List (String × α)) (k : String) :
    mapGet (mapDelete m k) k = none := by
  induction m with
  | nil => rfl
  | cons p m ih =>
    by_cases hpk : p.1 = k
    · have hd : mapDelete (p :: m) k = mapDelete m k := by
        simp [mapDelete, List.filter_cons, hpk]
      rw [hd]
      exact ih
    · have hd : mapDelete (p :: m) k = p :: mapDelete m k := by
        simp [mapDelete, List.filter_cons, hpk]
      rw [hd, mapGet_cons_ne p _ k hpk]
      exact ih

theorem fetchWithRetry_count_pos (svc : Service) (q : QueryFn)
    (relays : List String) (f : Filter) (t : Nat) :
    1 ≤ (fetchWithRetry svc q relays f t).2 := by
  rw [fetchWithRetry]
  rcases fetchFromRelays q relays f t with e | r
  · exact Nat.le_refl 1
  · rcases r with _ | r
    · dsimp only
      split
      · exact Nat.le_refl 1
      · exact Nat.le_of_lt Nat.one_lt_two
    · exact Nat.le_refl 1

theorem getCachedProfile_none_mapGet (svc : Service) (now : Nat) (pk : String)
    (svc1 : Service) (h : getCachedProfile svc now pk = (none, svc1)) :
    mapGet svc1.profileCache pk = none := by
  rw [getCachedProfile] at h
  split at h
  · rename_i hm
    injection h with h1 h2
    rw [← h2]
    exact hm
  · rename_i cached hm
    split at h
    · injection h with h1 h2
      rw [← h2]
      exact mapGet_mapDelete_self _ _
    · injection h with h1 h2
      exact Option.noConfusion h1

theorem getCachedProfile_of_mapGet_none (svc : Service) (now : Nat)
    (pk : String) (h : mapGet svc.profileCache pk = none) :
    getCachedProfile svc now pk = (none, svc) := by
  rw [getCachedProfile, h]

/-! ### Computation lemmas: one per execution path -/

theorem fetchWithRetry_hit (svc : Service) (q : QueryFn) (relays : List String)
    (f : Filter) (t : Nat) (r : Record) (hq : q relays f t = .ok (some r)) :
    fetchWithRetry svc q relays f t = (.ok (some r), 1) := by
  rw [fetchWithRetry, fetchFromRelays, hq]

theorem fetchWithRetry_err (svc : Service) (q : QueryFn) (relays : List String)
    (f : Filter) (t : Nat) (e : String) (hq : q relays f t = .error e) :
    fetchWithRetry svc q relays f t = (.error e, 1) := by
  rw [fetchWithRetry, fetchFromRelays, hq]

theorem fetchWithRetry_miss_noRetry (svc : Service) (q : QueryFn)
    (relays : List String) (f : Filter) (t : Nat)
    (hq : q relays f t = .ok none)
    (hle : (dedupeFirst (relays ++ getAllKnownRelays svc)).length ≤
      relays.length) :
    fetchWithRetry svc q relays f t = (.ok none, 1) := by
  rw [fetchWithRetry, fetchFromRelays, hq]
  dsimp only
  rw [if_pos hle]

theorem fetchWithRetry_miss_retry (svc : Service) (q : QueryFn)
    (relays : List String) (f : Filter) (t : Nat)
    (hq : q relays f t = .ok none)
    (hgt : relays.length <
      (dedupeFirst (relays ++ getAllKnownRelays svc)).length) :
    fetchWithRetry svc q relays f t =
      (q (dedupeFirst (relays ++ getAllKnownRelays svc)) f
        svc.retryTimeout, 2) := by
  rw [fetchWithRetry, fetchFromRelays, hq]
  dsimp only
  rw [if_neg (Nat.not_le.mpr hgt), fetchFromRelays]

theorem getCachedProfile_hit (svc : Service) (now : Nat) (pk : String)
    (c : CachedProfile) (hm : mapGet svc.profileCache pk = some c)
    (hfresh : now - c.timestamp ≤ svc.profileCacheTtlMs) :
    getCachedProfile svc now pk = (some c.value, svc) := by
  rw [getCachedProfile, hm]
  dsimp only
  rw [if_neg (Nat.not_lt.mpr hfresh)]

theorem getCachedProfile_expired (svc : Service) (now : Nat) (pk : String)
    (c : CachedProfile) (hm : mapGet svc.profileCache pk = some c)
    (hstale : svc.profileCacheTtlMs < now - c.timestamp) :
    getCachedProfile svc now pk =
      (none, { svc with profileCache := mapDelete svc.profileCache pk }) := by
  rw [getCachedProfile, hm]
  dsimp only
  rw [if_pos hstale]

theorem getProfile_cacheHit (svc : Service) (q : QueryFn) (pj : JsonParse)
    (now : Nat) (pk : String) (hints : List String) (v : ProfileResult)
    (s : Service) (hpk : pk ≠ "")
    (hc : getCachedProfile svc now pk = (some v, s)) :
    getProfile svc q pj now pk hints = (.ok (some v), s, 0) := by
  rw [getProfile, if_neg hpk, hc]

theorem getProfile_fetchErr (svc : Service) (q : QueryFn) (pj : JsonParse)
    (now : Nat) (pk : String) (hints : List String) (s : Service)
    (e : String) (n : Nat) (hpk : pk ≠ "")
    (hc : getCachedProfile svc now pk = (none, s))
    (hf : fetchWithRetry s q (buildRelayList s hints .profile)
      (.profileOf pk) s.profileTimeout = (.error e, n)) :
    getProfile svc q pj now pk hints = (.error (.transport e), s, n) := by
  rw [getProfile, if_neg hpk, hc]
  dsimp only
  rw [hf]

theorem getProfile_fetchNone (svc : Service) (q : QueryFn) (pj : JsonParse)
    (now : Nat) (pk : String) (hints : List String) (s : Service) (n : Nat)
    (hpk : pk ≠ "") (hc : getCachedProfile svc now pk = (none, s))
    (hf : fetchWithRetry s q (buildRelayList s hints .profile)
      (.profileOf pk) s.profileTimeout = (.ok none, n)) :
    getProfile svc q pj now pk hints = (.ok none, s, n) := by
  rw [getProfile, if_neg hpk, hc]
  dsimp only
  rw [hf]

theorem getProfile_fetchFound (svc : Service) (q : QueryFn) (pj : JsonParse)
    (now : Nat) (pk : String) (hints : List String) (s : Service)
    (ev : Record) (n : Nat) (hpk : pk ≠ "")
    (hc : getCachedProfile svc now pk = (none, s))
    (hf : fetchWithRetry s q (buildRelayList s hints .profile)
      (.profileOf pk) s.profileTimeout = (.ok (some ev), n)) :
    getProfile svc q pj now pk hints =
      (.ok (some { record := ev, profile := profileDataOf pj ev.content }),
        setCachedProfile s now pk
          { record := ev, profile := profileDataOf pj ev.content }, n) := by
  rw [getProfile, if_neg hpk, hc]
  dsimp only
  rw [hf]

theorem getEvent_fetchErr (svc : Service) (q : QueryFn) (pj : JsonParse)
    (now : Nat) (id : String) (hints : List String) (e : String) (n : Nat)
    (hid : id ≠ "")
    (hf : fetchWithRetry svc q (buildRelayList svc hints .event)
      (.byId id) svc.timeout = (.error e, n)) :
    getEvent svc q pj now id hints = (.error (.transport e), svc, n) := by
  rw [getEvent, if_neg hid]
  rw [hf]

theorem getEvent_fetchNone (svc : Service) (q : QueryFn) (pj : JsonParse)
    (now : Nat) (id : String) (hints : List String) (n : Nat) (hid : id ≠ "")
    (hf : fetchWithRetry svc q (buildRelayList svc hints .event)
      (.byId id) svc.timeout = (.ok none, n)) :
    getEvent svc q pj now id hints = (.ok none, svc, n) := by
  rw [getEvent, if_neg hid]
  rw [hf]

theorem getEvent_found_noPubkey (svc : Service) (q : QueryFn) (pj : JsonParse)
    (now : Nat) (id : String) (hints : List String) (ev : Record) (n : Nat)
    (hid : id ≠ "")
    (hf : fetchWithRetry svc q (buildRelayList svc hints .event)
      (.byId id) svc.timeout = (.ok (some ev), n))
    (hpk : ev.pubkey = "") :
    getEvent svc q pj now id hints =
      (.ok (some { record := ev, author := none }), svc, n) := by
  rw [getEvent, if_neg hid]
  rw [hf]
  dsimp only
  rw [if_neg (fun hc => hc hpk)]

theorem getEvent_found_profileOk (svc : Service) (q : QueryFn)
    (pj : JsonParse) (now : Nat) (id : String) (hints : List String)
    (ev : Record) (n : Nat) (p : Option ProfileResult) (s : Service) (m : Nat)
    (hid : id ≠ "")
    (hf : fetchWithRetry svc q (buildRelayList svc hints .event)
      (.byId id) svc.timeout = (.ok (some ev), n))
    (hpk : ev.pubkey ≠ "")
    (hp : getProfile svc q pj now ev.pubkey hints = (.ok p, s, m)) :
    getEvent svc q pj now id hints =
      (.ok (some { record := ev, author := p }), s, n + m) := by
  rw [getEvent, if_neg hid]
  rw [hf]
  dsimp only
  rw [if_pos hpk, hp]

theorem getEvent_found_profileErr (svc : Service) (q : QueryFn)
    (pj : JsonParse) (now : Nat) (id : String) (hints : List String)
    (ev : Record) (n : Nat) (e : Err) (s : Service) (m : Nat)
    (hid : id ≠ "")
    (hf : fetchWithRetry svc q (buildRelayList svc hints .event)
      (.byId id) svc.timeout = (.ok (some ev), n))
    (hpk : ev.pubkey ≠ "")
    (hp : getProfile svc q pj now ev.pubkey hints = (.error e, s, m)) :
    getEvent svc q pj now id hints =
      (.ok (some { record := ev, author := none }), s, n + m) := by
  rw [getEvent, if_neg hid]
  rw [hf]
  dsimp only
  rw [if_pos hpk, hp]

theorem getArticle_precondition (svc : Service) (q : QueryFn) (pj : JsonParse)
    (now : Nat) (author identifier : String) (kind : Int)
    (hints : List String) (h : author = "" ∨ identifier = "" ∨ kind = 0) :
    getArticle svc q pj now author identifier kind hints =
      (.error (.precondition "author, identifier and kind are required"),
        svc, 0) := by
  rw [getArticle, if_pos h]

theorem getArticle_fetchErr (svc : Service) (q : QueryFn) (pj : JsonParse)
    (now : Nat) (author identifier : String) (kind : Int)
    (hints : List String) (po : Except Err (Option ProfileResult))
    (s : Service) (m : Nat) (e : String) (n : Nat)
    (h : ¬(author = "" ∨ identifier = "" ∨ kind = 0))
    (hp : getProfile svc q pj now author hints = (po, s, m))
    (hf : fetchWithRetry s q (buildRelayList svc hints .event)
      (.article author kind identifier) s.timeout = (.error e, n)) :
    getArticle svc q pj now author identifier kind hints =
      (.error (.transport e), s, m + n) := by
  rw [getArticle, if_neg h]
  rw [hp]
  dsimp only
  rw [hf]

theorem getArticle_fetchNone (svc : Service) (q : QueryFn) (pj : JsonParse)
    (now : Nat) (author identifier : String) (kind : Int)
    (hints : List String) (po : Except Err (Option ProfileResult))
    (s : Service) (m : Nat) (n : Nat)
    (h : ¬(author = "" ∨ identifier = "" ∨ kind = 0))
    (hp : getProfile svc q pj now author hints = (po, s, m))
    (hf : fetchWithRetry s q (buildRelayList svc hints .event)
      (.article author kind identifier) s.timeout = (.ok none, n)) :
    getArticle svc q pj now author identifier kind hints =
      (.ok none, s, m + n) := by
  rw [getArticle, if_neg h]
  rw [hp]
  dsimp only
  rw [hf]

theorem getArticle_found (svc : Service) (q : QueryFn) (pj : JsonParse)
    (now : Nat) (author identifier : String) (kind : Int)
    (hints : List String) (po : Except Err (Option ProfileResult))
    (s : Service) (m : Nat) (ev : Record) (n : Nat)
    (h : ¬(author = "" ∨ identifier = "" ∨ kind = 0))
    (hp : getProfile svc q pj now author hints = (po, s, m))
    (hf : fetchWithRetry s q (buildRelayList svc hints .event)
      (.article author kind identifier) s.timeout = (.ok (some ev), n)) :
    getArticle svc q pj now author identifier kind hints =
      (.ok (some { record := ev, author := absorbProfileFailure po }),
        s, m + n) := by
  rw [getArticle, if_neg h]
  rw [hp]
  dsimp only
  rw [hf]

/-! ### Invariance of configuration fields under cache mutation -/

theorem getCachedProfile_ttl (svc : Service) (now : Nat) (pk : String) :
    ((getCachedProfile svc now pk).2).profileCacheTtlMs =
      svc.profileCacheTtlMs := by
  rw [getCachedProfile]
  rcases hm : mapGet svc.profileCache pk with _ | c
  · rfl
  · dsimp only
    split
    · rfl
    · rfl

theorem setCachedProfile_ttl (svc : Service) (now : Nat) (pk : String)
    (r : ProfileResult) :
    (setCachedProfile svc now pk r).profileCacheTtlMs =
      svc.profileCacheTtlMs := rfl

/-- Inversion: a `getProfile` call that returned a found result after at
least one `pool.get` call went through the fetch path, and its resulting
service state is the cache-updated one. -/
theorem getProfile_found_inv (svc : Service) (q : QueryFn) (pj : JsonParse)
    (now : Nat) (pk : String) (hints : List String) (r : ProfileResult)
    (svc' : Service) (n : Nat)
    (h : getProfile svc q pj now pk hints = (.ok (some r), svc', n))
    (hn : 1 ≤ n) :
    pk ≠ "" ∧
      svc' = setCachedProfile (getCachedProfile svc now pk).2 now pk r := by
  by_cases hpk : pk = ""
  · rw [getProfile, if_pos hpk] at h
    injection h with h1 h2
    exact Except.noConfusion h1
  · refine ⟨hpk, ?_⟩
    rw [getProfile, if_neg hpk] at h
    split at h
    · rename_i v s heq
      injection h with h1 h2
      injection h2 with h2a h2b
      rw [← h2b] at hn
      exact absurd hn (by decide)
    · rename_i s heq
      split at h
      · injection h with h1 h2
        exact Except.noConfusion h1
      · injection h with h1 h2
        injection h1 with h1
        exact Option.noConfusion h1
      · rename_i ev n' hf
        dsimp only at h
        injection h with h1 h2
        injection h1 with h1
        injection h1 with h1
        injection h2 with h2a h2b
        rw [heq]
        rw [← h2a, h1]

/-- `getProfile` never reports a precondition failure on a non-empty
pubkey. -/
theorem getProfile_not_precondition (svc : Service) (q : QueryFn)
    (pj : JsonParse) (now : Nat) (pk : String) (hints : List String)
    (hpk : pk ≠ "") :
    isPreconditionFailure (getProfile svc q pj now pk hints).1 = false := by
  rcases hm : getCachedProfile svc now pk with ⟨_ | v, s⟩
  · rcases hf : fetchWithRetry s q (buildRelayList s hints .profile)
        (.profileOf pk) s.profileTimeout with ⟨res, n⟩
    rcases res with e | r
    · rw [getProfile_fetchErr svc q pj now pk hints s e n hpk hm hf]
      rfl
    · rcases r with _ | ev
      · rw [getProfile_fetchNone svc q pj now pk hints s n hpk hm hf]
        rfl
      · rw [getProfile_fetchFound svc q pj now pk hints s ev n hpk hm hf]
        rfl
  · rw [getProfile_cacheHit svc q pj now pk hints v s hpk hm]
    rfl

/-- `getEvent` never reports a precondition failure on a non-empty id. -/
theorem getEvent_not_precondition (svc : Service) (q : QueryFn)
    (pj : JsonParse) (now : Nat) (id : String) (hints : List String)
    (hid : id ≠ "") :
    isPreconditionFailure (getEvent svc q pj now id hints).1 = false := by
  rcases hf : fetchWithRetry svc q (buildRelayList svc hints .event)
      (.byId id) svc.timeout with ⟨res, n⟩
  rcases res with e | r
  · rw [getEvent_fetchErr svc q pj now id hints e n hid hf]
    rfl
  · rcases r with _ | ev
    · rw [getEvent_fetchNone svc q pj now id hints n hid hf]
      rfl
    · by_cases hpk : ev.pubkey = ""
      · rw [getEvent_found_noPubkey svc q pj now id hints ev n hid hf hpk]
        rfl
      · rcases hp : getProfile svc q pj now ev.pubkey hints with ⟨po, s, m⟩
        rcases po with e | p
        · rw [getEvent_found_profileErr svc q pj now id hints ev n e s m
            hid hf hpk hp]
          rfl
        · rw [getEvent_found_profileOk svc q pj now id hints ev n p s m
            hid hf hpk hp]
          rfl

/-- `getArticle` never reports a precondition failure when all three of
author, identifier and kind are present (kind ≠ 0). -/
theorem getArticle_not_precondition (svc : Service) (q : QueryFn)
    (pj : JsonParse) (now : Nat) (author identifier : String) (kind : Int)
    (hints : List String) (h : ¬(author = "" ∨ identifier = "" ∨ kind = 0)) :
    isPreconditionFailure
      (getArticle svc q pj now author identifier kind hints).1 = false := by
  rcases hp : getProfile svc q pj now author hints with ⟨po, s, m⟩
  rcases hf : fetchWithRetry s q (buildRelayList svc hints .event)
      (.article author kind identifier) s.timeout with ⟨res, n⟩
  rcases res with e | r
  · rw [getArticle_fetchErr svc q pj now author identifier kind hints po s m
      e n h hp hf]
    rfl
  · rcases r with _ | ev
    · rw [getArticle_fetchNone svc q pj now author identifier kind hints po
        s m n h hp hf]
      rfl
    · rw [getArticle_found svc q pj now author identifier kind hints po s m
        ev n h hp hf]
      rfl

/-- Validity predicate of `parseRelayList`: websocket-class scheme. -/
def isRelayScheme (relay : String) : Bool :=
  jsStartsWith relay "wss://" || jsStartsWith relay "ws://"

theorem parseRelayList_eq (s : String) (fb : List String) :
    parseRelayList s fb =
      dedupeFirst (((if s = "" then fb else jsSplitOnComma s).map
        jsTrim).filter isRelayScheme) := rfl

/-- The built-in default event relay list of the `NostrService` constructor. -/
def builtinEventRelays : List String :=
  ["wss://relay.damus.io", "wss://nos.lol", "wss://relay.primal.net",
   "wss://premium.primal.net", "wss://relay.snort.social", "wss://nostr.wine",
   "wss://relay.nos.social", "wss://nostr.mom", "wss://relay.mostr.pub"]

/-- The built-in default profile relay list of the `NostrService` constructor. -/
def builtinProfileRelays : List String :=
  ["wss://relay.damus.io", "wss://nos.lol", "wss://relay.nos.social",
   "wss://relay.snort.social", "wss://relay.primal.net",
   "wss://premium.primal.net", "wss://nostr.wine", "wss://nostr.mom",
   "wss://relay.mostr.pub"]

/-! ## Claim C1 -/

/-- C1 counterexample: with the non-empty configured string `"http://x"`
(one entry, invalid scheme) and the non-empty fallback `["wss://a"]`,
`parseRelayList` returns the empty list — it neither falls back to the
defaults nor avoids emptiness, refuting the claim that an all-invalid
configured input yields the fallback defaults and never an empty list. -/
theorem parseRelayList_allInvalid_counterexample :
    parseRelayList "http://x" ["wss://a"] = [] ∧
      (["wss://a"] : List String) ≠ [] := by
  constructor
  · rfl
  · decide

/-- C1 (amended): for a non-empty configured CSV string, `parseRelayList`
returns exactly the valid-scheme entries (split on comma, trimmed, filtered
to websocket-class schemes), without duplicates — which may be the empty
list when every entry is invalid.  The fallback list is consulted only when
the configured string is empty, in which case it undergoes the same
trim/filter/dedup pipeline; for an already trimmed, valid and duplicate-free
fallback (such as the built-in defaults) it is returned unchanged. -/
theorem parseRelayList_spec (s : String) (fb : List String) :
    (s ≠ "" → ∀ r, r ∈ parseRelayList s fb ↔
      r ∈ (jsSplitOnComma s).map jsTrim ∧ isRelayScheme r = true) ∧
    (parseRelayList s fb).Nodup ∧
    ((∀ r ∈ fb, jsTrim r = r ∧ isRelayScheme r = true) → fb.Nodup →
      parseRelayList "" fb = fb) := by
  refine ⟨fun hs r => ?_, ?_, fun hfb hnd => ?_⟩
  · rw [parseRelayList_eq, if_neg hs, mem_dedupeFirst, List.mem_filter]
  · rw [parseRelayList_eq]
    exact nodup_dedupeFirst _
  · rw [parseRelayList_eq, if_pos rfl]
    have hmap : fb.map jsTrim = fb := by
      rw [List.map_congr_left (fun a ha => (hfb a ha).1), List.map_id']
    rw [hmap, List.filter_eq_self.mpr (fun a ha => (hfb a ha).2)]
    exact dedupeFirst_eq_self fb hnd

/-- C1 witness: the amended characterization applied at the concrete mixed
configured string `"wss://a ,http://b,wss://a"` and at the built-in event
relay defaults. -/
theorem parseRelayList_spec_witness :
    ("wss://a" ∈ parseRelayList "wss://a ,http://b,wss://a" ["ws://f"] ↔
      "wss://a" ∈ (jsSplitOnComma "wss://a ,http://b,wss://a").map jsTrim ∧
        isRelayScheme "wss://a" = true) ∧
    parseRelayList "" builtinEventRelays = builtinEventRelays := by
  constructor
  · exact (parseRelayList_spec "wss://a ,http://b,wss://a" ["ws://f"]).1
      (by decide) "wss://a"
  · exact (parseRelayList_spec "x" builtinEventRelays).2.2
      (by decide) (by decide)

/-! ## Shared concrete instances for witnesses -/

/-- A concrete service with one event relay and one profile relay. -/
def svcW : Service :=
  { defaultEventRelays := ["wss://e"], defaultProfileRelays := ["wss://p"],
    timeout := 3000, profileTimeout := 3000, retryTimeout := 1800,
    profileCacheTtlMs := 60000, profileCache := [] }

/-- A concrete event record. -/
def recW : Record := { id := "id1", pubkey := "pk1", kind := 1, content := "{}" }

/-- A concrete kind-0 profile record with unparseable content. -/
def profRecW : Record :=
  { id := "id2", pubkey := "pk1", kind := 0, content := "not json" }

/-- A query function that always finds `recW`. -/
def qFound : QueryFn := fun _ _ _ => .ok (some recW)

/-- A query function that always finds `profRecW`. -/
def qProf : QueryFn := fun _ _ _ => .ok (some profRecW)

/-- A query function that never finds anything. -/
def qMiss : QueryFn := fun _ _ _ => .ok none

/-- A query function whose transport always fails. -/
def qBoom : QueryFn := fun _ _ _ => .error "boom"

/-- A query function that answers only by-id event queries (with `recW`)
and misses for every other filter shape. -/
def qEvOnly : QueryFn := fun _ f _ =>
  match f with
  | .byId _ => .ok (some recW)
  | _ => .ok none

/-- A query function that finds the article (`recW`) and the author profile
(`profRecW`), and misses by-id queries. -/
def qArt : QueryFn := fun _ f _ =>
  match f with
  | .article _ _ _ => .ok (some recW)
  | .profileOf _ => .ok (some profRecW)
  | .byId _ => .ok none

/-- A query function that finds the article (`recW`) but whose profile
queries fail at the transport level. -/
def qArtOnly : QueryFn := fun _ f _ =>
  match f with
  | .article _ _ _ => .ok (some recW)
  | .profileOf _ => .error "boom"
  | .byId _ => .ok none

/-- A JSON parser that always fails (every content is invalid JSON). -/
def pjFail : JsonParse := fun _ => none

/-- A JSON parser returning a one-field object for any content. -/
def pjAlice : JsonParse := fun _ => some [("name", "alice")]

/-- The profile result built from `profRecW` when JSON parsing fails. -/
def profResW : ProfileResult := { record := profRecW, profile := [] }

/-- A cache entry holding `profResW`, stored at time 50. -/
def cachedProfW : CachedProfile := { value := profResW, timestamp := 50 }

/-- `svcW` with `profResW` cached under `"pk1"`. -/
def svcCached : Service := { svcW with profileCache := [("pk1", cachedProfW)] }

/-! ## Claim C2 -/

/-- C2: `fetchWithRetry` returns a first-query hit immediately with a single
`pool.get` call; on a miss it computes the expanded set as the deduplicated
union of the initial relays with all known relays, returns absent with no
second call when the expansion is no larger than the initial list, and
otherwise issues exactly one retry against the expanded set with the retry
timeout, returning whatever it yields.  In particular a miss on the full
known universe never triggers a second call. -/
theorem fetchWithRetry_spec (svc : Service) (q : QueryFn)
    (relays : List String) (f : Filter) (t : Nat) :
    (∀ r, q relays f t = .ok (some r) →
      fetchWithRetry svc q relays f t = (.ok (some r), 1)) ∧
    (q relays f t = .ok none →
      (dedupeFirst (relays ++ getAllKnownRelays svc)).length ≤
        relays.length →
      fetchWithRetry svc q relays f t = (.ok none, 1)) ∧
    (q relays f t = .ok none →
      relays.length <
        (dedupeFirst (relays ++ getAllKnownRelays svc)).length →
      fetchWithRetry svc q relays f t =
        (q (dedupeFirst (relays ++ getAllKnownRelays svc)) f
          svc.retryTimeout, 2)) ∧
    (relays = getAllKnownRelays svc → q relays f t = .ok none →
      fetchWithRetry svc q relays f t = (.ok none, 1)) := by
  refine ⟨fun r hq => fetchWithRetry_hit svc q relays f t r hq,
    fun hq hle => fetchWithRetry_miss_noRetry svc q relays f t hq hle,
    fun hq hgt => fetchWithRetry_miss_retry svc q relays f t hq hgt,
    fun hr hq => ?_⟩
  subst hr
  refine fetchWithRetry_miss_noRetry svc q _ f t hq ?_
  rw [dedupeFirst_append_self,
    dedupeFirst_eq_self _ (by rw [getAllKnownRelays]; exact nodup_dedupeFirst _)]

/-- C2 witness: the three paths exercised concretely — a hit returns with one
call; a miss on the full known universe stays at one call; a miss on an
empty initial list retries once against the expanded set. -/
theorem fetchWithRetry_spec_witness :
    fetchWithRetry svcW qFound ["wss://e"] (.byId "id1") 3000 =
      (.ok (some recW), 1) ∧
    fetchWithRetry svcW qMiss (getAllKnownRelays svcW) (.byId "id1") 3000 =
      (.ok none, 1) ∧
    fetchWithRetry svcW qMiss [] (.byId "id1") 3000 =
      (qMiss (dedupeFirst ([] ++ getAllKnownRelays svcW)) (.byId "id1")
        svcW.retryTimeout, 2) := by
  refine ⟨(fetchWithRetry_spec svcW qFound ["wss://e"] (.byId "id1") 3000).1
      recW rfl,
    (fetchWithRetry_spec svcW qMiss (getAllKnownRelays svcW)
      (.byId "id1") 3000).2.2.2 rfl rfl,
    (fetchWithRetry_spec svcW qMiss [] (.byId "id1") 3000).2.2.1 rfl
      (by decide)⟩

/-! ## Claim C3 -/

/-- C3 counterexample: a `MemoryCache` entry stored at time 0 with ttl 5 has
`expiresAt = 5`, and a `get` performed exactly at `now = expiresAt = 5` (at
expiry) still returns the value and does not delete the entry — refuting
"visible only while `now < expiresAt`" and "a get at or after expiry returns
absent and deletes": the code evicts only strictly after `expiresAt`. -/
theorem memoryCache_at_expiry_counterexample :
    mapGet (MemoryCache.set ([] : MemoryCache Nat) "k" 7 5 0) "k" =
      some { value := 7, expiresAt := 5 } ∧
    MemoryCache.get (MemoryCache.set ([] : MemoryCache Nat) "k" 7 5 0) "k" 5 =
      (some 7, MemoryCache.set ([] : MemoryCache Nat) "k" 7 5 0) := by
  exact ⟨rfl, rfl⟩

/-- C3 (amended): a cache entry is visible while `now ≤ expiresAt`; a `get`
performed strictly after `expiresAt` both returns absent and deletes the
entry, and a value is observable through `get` only while `now ≤ expiresAt`
(so no read strictly past expiry ever sees a value).  The same boundary
holds for the service profile cache, whose entry stored at `timestamp`
expires once `now - timestamp` exceeds the ttl. -/
theorem cacheExpiry_spec :
    (∀ (V : Type) (c : MemoryCache V) (k : String) (now : Nat)
       (e : MCEntry V), mapGet c k = some e →
       (now ≤ e.expiresAt → MemoryCache.get c k now = (some e.value, c)) ∧
       (e.expiresAt < now →
         MemoryCache.get c k now = (none, mapDelete c k))) ∧
    (∀ (V : Type) (c : MemoryCache V) (k : String) (now : Nat) (v : V)
       (c' : MemoryCache V), MemoryCache.get c k now = (some v, c') →
       ∃ e, mapGet c k = some e ∧ now ≤ e.expiresAt ∧ v = e.value ∧
         c' = c) ∧
    (∀ (svc : Service) (now : Nat) (pk : String) (e : CachedProfile),
       mapGet svc.profileCache pk = some e →
       (now - e.timestamp ≤ svc.profileCacheTtlMs →
         getCachedProfile svc now pk = (some e.value, svc)) ∧
       (svc.profileCacheTtlMs < now - e.timestamp →
         getCachedProfile svc now pk =
           (none,
             { svc with profileCache := mapDelete svc.profileCache pk }))) := by
  refine ⟨fun V c k now e hm => ⟨fun hle => ?_, fun hlt => ?_⟩,
    fun V c k now v c' h => ?_,
    fun svc now pk e hm => ⟨fun hle => getCachedProfile_hit svc now pk e hm hle,
      fun hlt => getCachedProfile_expired svc now pk e hm hlt⟩⟩
  · rw [MemoryCache.get, hm]
    dsimp only
    rw [if_neg (Nat.not_lt.mpr hle)]
  · rw [MemoryCache.get, hm]
    dsimp only
    rw [if_pos hlt]
  · rw [MemoryCache.get] at h
    split at h
    · injection h with h1 h2
      exact Option.noConfusion h1
    · rename_i e hm
      split at h
      · injection h with h1 h2
        exact Option.noConfusion h1
      · rename_i hcond
        injection h with h1 h2
        injection h1 with h1
        exact ⟨e, hm, Nat.not_lt.mp hcond, h1.symm, h2.symm⟩

/-- C3 witness: the amended boundary applied concretely — a read at
`now = expiresAt` is visible, a read one tick later evicts, and a fresh
profile-cache entry is returned on an unexpired read. -/
theorem cacheExpiry_spec_witness :
    MemoryCache.get (MemoryCache.set ([] : MemoryCache Nat) "k" 7 5 0) "k" 5 =
      (some 7, MemoryCache.set ([] : MemoryCache Nat) "k" 7 5 0) ∧
    MemoryCache.get (MemoryCache.set ([] : MemoryCache Nat) "k" 7 5 0) "k" 6 =
      (none, mapDelete (MemoryCache.set ([] : MemoryCache Nat) "k" 7 5 0)
        "k") ∧
    getCachedProfile svcCached 100 "pk1" = (some profResW, svcCached) := by
  refine ⟨(cacheExpiry_spec.1 Nat
      (MemoryCache.set ([] : MemoryCache Nat) "k" 7 5 0) "k" 5
      { value := 7, expiresAt := 5 } (by decide)).1 (by decide),
    (cacheExpiry_spec.1 Nat
      (MemoryCache.set ([] : MemoryCache Nat) "k" 7 5 0) "k" 6
      { value := 7, expiresAt := 5 } (by decide)).2 (by decide),
    (cacheExpiry_spec.2.2 svcCached 100 "pk1" cachedProfW rfl).1 (by decide)⟩

/-! ## Claim C4 -/

/-- C4: `getProfile` is cache-first.  A present, unexpired entry is returned
immediately with zero `pool.get` calls and unchanged state; a miss that
resolves (at least one query issued) stores the combined result in the cache
under the pubkey with the current timestamp; and after such a resolution any
second call within the TTL window returns the identical object with zero
queries and unchanged state. -/
theorem getProfile_cacheFirst (svc : Service) (q : QueryFn) (pj : JsonParse)
    (now : Nat) (pk : String) (hints : List String) :
    (∀ c, pk ≠ "" → mapGet svc.profileCache pk = some c →
      now - c.timestamp ≤ svc.profileCacheTtlMs →
      getProfile svc q pj now pk hints = (.ok (some c.value), svc, 0)) ∧
    (∀ r svc' n,
      getProfile svc q pj now pk hints = (.ok (some r), svc', n) → 1 ≤ n →
      mapGet svc'.profileCache pk = some { value := r, timestamp := now }) ∧
    (∀ r svc' n,
      getProfile svc q pj now pk hints = (.ok (some r), svc', n) → 1 ≤ n →
      ∀ now2, now2 - now ≤ svc.profileCacheTtlMs →
      getProfile svc' q pj now2 pk hints = (.ok (some r), svc', 0)) := by
  refine ⟨fun c hpk hm hfresh => ?_, fun r svc' n h hn => ?_,
    fun r svc' n h hn now2 hwin => ?_⟩
  · exact getProfile_cacheHit svc q pj now pk hints c.value svc hpk
      (getCachedProfile_hit svc now pk c hm hfresh)
  · obtain ⟨hpk, hsvc⟩ :=
      getProfile_found_inv svc q pj now pk hints r svc' n h hn
    rw [hsvc, setCachedProfile]
    exact mapGet_mapSet_self _ _ _
  · obtain ⟨hpk, hsvc⟩ :=
      getProfile_found_inv svc q pj now pk hints r svc' n h hn
    have hmget : mapGet svc'.profileCache pk =
        some { value := r, timestamp := now } := by
      rw [hsvc, setCachedProfile]
      exact mapGet_mapSet_self _ _ _
    have httl : svc'.profileCacheTtlMs = svc.profileCacheTtlMs := by
      rw [hsvc, setCachedProfile_ttl, getCachedProfile_ttl]
    refine getProfile_cacheHit svc' q pj now2 pk hints r svc' hpk ?_
    exact getCachedProfile_hit svc' now2 pk
      { value := r, timestamp := now } hmget (by rw [httl]; exact hwin)

/-- The profile result cached by the C4 witness run. -/
def profAliceRes : ProfileResult :=
  { record := profRecW, profile := [("name", "alice")] }

/-- The service state after the C4 witness run stored `profAliceRes`. -/
def svcAfterW : Service := setCachedProfile svcW 100 "pk1" profAliceRes

/-- C4 witness: a concrete cache hit with zero queries, a concrete miss that
stores its result, and the second call within the TTL window returning the
identical object with zero queries. -/
theorem getProfile_cacheFirst_witness :
    getProfile svcCached qMiss pjAlice 100 "pk1" [] =
      (.ok (some profResW), svcCached, 0) ∧
    mapGet svcAfterW.profileCache "pk1" =
      some { value := profAliceRes, timestamp := 100 } ∧
    getProfile svcAfterW qProf pjAlice 200 "pk1" [] =
      (.ok (some profAliceRes), svcAfterW, 0) := by
  refine ⟨(getProfile_cacheFirst svcCached qMiss pjAlice 100 "pk1" []).1
      cachedProfW (by decide) rfl (by decide),
    (getProfile_cacheFirst svcW qProf pjAlice 100 "pk1" []).2.1
      profAliceRes svcAfterW 1 rfl (by decide),
    (getProfile_cacheFirst svcW qProf pjAlice 100 "pk1" []).2.2
      profAliceRes svcAfterW 1 rfl (by decide) 200 (by decide)⟩

/-! ## Claim C5 -/

/-- C5: if the primary event query of `getEvent` succeeds but the
author-profile sub-resolution fails (error) or yields nothing, the primary
record is still returned with the `author` field omitted — the enrichment
failure never escalates into a failure of the event resolution. -/
theorem getEvent_enrichment_nonfatal (svc : Service) (q : QueryFn)
    (pj : JsonParse) (now : Nat) (id : String) (hints : List String)
    (ev : Record) (n : Nat) (hid : id ≠ "")
    (hf : fetchWithRetry svc q (buildRelayList svc hints .event) (.byId id)
      svc.timeout = (.ok (some ev), n))
    (hsub : (getProfile svc q pj now ev.pubkey hints).1 = .ok none ∨
      ∃ e, (getProfile svc q pj now ev.pubkey hints).1 = .error e) :
    ∃ s m, getEvent svc q pj now id hints =
      (.ok (some { record := ev, author := none }), s, m) := by
  by_cases hpk : ev.pubkey = ""
  · exact ⟨svc, n,
      getEvent_found_noPubkey svc q pj now id hints ev n hid hf hpk⟩
  · rcases hp : getProfile svc q pj now ev.pubkey hints with ⟨po, s, m⟩
    rw [hp] at hsub
    rcases hsub with hnone | ⟨e, herr⟩
    · refine ⟨s, n + m, ?_⟩
      have hpo : po = .ok none := hnone
      rw [hpo] at hp
      exact getEvent_found_profileOk svc q pj now id hints ev n none s m
        hid hf hpk hp
    · refine ⟨s, n + m, ?_⟩
      have hpo : po = .error e := herr
      rw [hpo] at hp
      exact getEvent_found_profileErr svc q pj now id hints ev n e s m
        hid hf hpk hp

/-- C5 witness: `qEvOnly` answers the by-id filter with `recW` but misses
every profile query, so the author sub-resolution yields absent and the
event is still returned, without an `author` field. -/
theorem getEvent_enrichment_nonfatal_witness :
    ∃ s m, getEvent svcW qEvOnly pjAlice 100 "id1" [] =
      (.ok (some { record := recW, author := none }), s, m) := by
  exact getEvent_enrichment_nonfatal svcW qEvOnly pjAlice 100 "id1" []
    recW 1 (by decide) rfl (Or.inl rfl)

/-! ## Claim C6 -/

/-- C6: `getArticle` joins the article query with the author-profile
sub-resolution: when both succeed the result carries the article record with
the profile attached as `author`; when the profile sub-resolution yields
nothing or fails, the article is returned alone (author omitted), without
the call failing. -/
theorem getArticle_join (svc : Service) (q : QueryFn) (pj : JsonParse)
    (now : Nat) (author identifier : String) (kind : Int)
    (hints : List String) :
    (∀ (p : Option ProfileResult) s m ev n,
      author ≠ "" → identifier ≠ "" → kind ≠ 0 →
      getProfile svc q pj now author hints = (.ok p, s, m) →
      fetchWithRetry s q (buildRelayList svc hints .event)
        (.article author kind identifier) s.timeout = (.ok (some ev), n) →
      getArticle svc q pj now author identifier kind hints =
        (.ok (some { record := ev, author := p }), s, m + n)) ∧
    (∀ e s m ev n, author ≠ "" → identifier ≠ "" → kind ≠ 0 →
      getProfile svc q pj now author hints = (.error e, s, m) →
      fetchWithRetry s q (buildRelayList svc hints .event)
        (.article author kind identifier) s.timeout = (.ok (some ev), n) →
      getArticle svc q pj now author identifier kind hints =
        (.ok (some { record := ev, author := none }), s, m + n)) := by
  constructor
  · intro p s m ev n ha hi hk hp hf
    exact getArticle_found svc q pj now author identifier kind hints
      (.ok p) s m ev n (by simp [ha, hi, hk]) hp hf
  · intro e s m ev n ha hi hk hp hf
    exact getArticle_found svc q pj now author identifier kind hints
      (.error e) s m ev n (by simp [ha, hi, hk]) hp hf

/-- C6 witness: both sub-queries succeed concretely (`qArt`), attaching the
author profile; a transport-failing profile sub-query (`qArtOnly`) still
returns the article alone. -/
theorem getArticle_join_witness :
    getArticle svcW qArt pjAlice 100 "pk1" "d1" 30023 [] =
      (.ok (some { record := recW, author := some profAliceRes }),
        svcAfterW, 2) ∧
    getArticle svcW qArtOnly pjAlice 100 "pk1" "d1" 30023 [] =
      (.ok (some { record := recW, author := none }), svcW, 2) := by
  refine ⟨(getArticle_join svcW qArt pjAlice 100 "pk1" "d1" 30023 []).1
      (some profAliceRes) svcAfterW 1 recW 1
      (by decide) (by decide) (by decide) rfl rfl,
    (getArticle_join svcW qArtOnly pjAlice 100 "pk1" "d1" 30023 []).2
      (.transport "boom") svcW 1 recW 1
      (by decide) (by decide) (by decide) rfl rfl⟩

/-! ## Claim C7 -/

/-- C7: when the fetched profile record's content fails to parse as JSON,
`getProfile` degrades to an empty profile object: the call still succeeds,
returning the raw record together with `profile = {}` (the empty object),
and that combined value is what gets cached. -/
theorem getProfile_parseFailure (svc : Service) (q : QueryFn)
    (pj : JsonParse) (now : Nat) (pk : String) (hints : List String)
    (s : Service) (ev : Record) (n : Nat) (hpk : pk ≠ "")
    (hc : getCachedProfile svc now pk = (none, s))
    (hf : fetchWithRetry s q (buildRelayList s hints .profile)
      (.profileOf pk) s.profileTimeout = (.ok (some ev), n))
    (hparse : pj ev.content = none) :
    getProfile svc q pj now pk hints =
      (.ok (some { record := ev, profile := [] }),
        setCachedProfile s now pk { record := ev, profile := [] }, n) := by
  have h := getProfile_fetchFound svc q pj now pk hints s ev n hpk hc hf
  have hpd : profileDataOf pj ev.content = [] := by
    rw [profileDataOf, hparse]
  rw [hpd] at h
  exact h

/-- C7 witness: `qProf` finds `profRecW` (content `"not json"`), `pjFail`
rejects it, and the result still succeeds with an empty profile object. -/
theorem getProfile_parseFailure_witness :
    getProfile svcW qProf pjFail 100 "pk1" [] =
      (.ok (some profResW), setCachedProfile svcW 100 "pk1" profResW, 1) := by
  exact getProfile_parseFailure svcW qProf pjFail 100 "pk1" [] svcW
    profRecW 1 (by decide) rfl rfl rfl

/-! ## Claim C8 -/

/-- C8: each entry point fails with a precondition error (distinct by
construction from the absent outcome, which is `.ok none`) exactly when a
required identifier component is missing — `getEvent` iff the id is empty,
`getProfile` iff the pubkey is empty, `getArticle` iff author or identifier
is empty or kind is 0 — and in each such case the failure is returned with
zero `pool.get` calls, i.e. before any relay query. -/
theorem precondition_spec (svc : Service) (q : QueryFn) (pj : JsonParse)
    (now : Nat) (id pk author identifier : String) (kind : Int)
    (hints : List String) :
    (isPreconditionFailure (getEvent svc q pj now id hints).1 = true ↔
      id = "") ∧
    (id = "" → getEvent svc q pj now id hints =
      (.error (.precondition "eventId is required"), svc, 0)) ∧
    (isPreconditionFailure (getProfile svc q pj now pk hints).1 = true ↔
      pk = "") ∧
    (pk = "" → getProfile svc q pj now pk hints =
      (.error (.precondition "pubkey is required"), svc, 0)) ∧
    (isPreconditionFailure
        (getArticle svc q pj now author identifier kind hints).1 = true ↔
      (author = "" ∨ identifier = "" ∨ kind = 0)) ∧
    ((author = "" ∨ identifier = "" ∨ kind = 0) →
      getArticle svc q pj now author identifier kind hints =
        (.error (.precondition "author, identifier and kind are required"),
          svc, 0)) := by
  refine ⟨⟨fun h => ?_, fun h => ?_⟩, fun h => ?_, ⟨fun h => ?_, fun h => ?_⟩,
    fun h => ?_, ⟨fun h => ?_, fun h => ?_⟩, fun h => ?_⟩
  · by_cases hid : id = ""
    · exact hid
    · rw [getEvent_not_precondition svc q pj now id hints hid] at h
      exact Bool.noConfusion h
  · rw [getEvent, if_pos h]
    rfl
  · rw [getEvent, if_pos h]
  · by_cases hpk : pk = ""
    · exact hpk
    · rw [getProfile_not_precondition svc q pj now pk hints hpk] at h
      exact Bool.noConfusion h
  · rw [getProfile, if_pos h]
    rfl
  · rw [getProfile, if_pos h]
  · by_cases hmiss : author = "" ∨ identifier = "" ∨ kind = 0
    · exact hmiss
    · rw [getArticle_not_precondition svc q pj now author identifier kind
        hints hmiss] at h
      exact Bool.noConfusion h
  · rw [getArticle, if_pos h]
    rfl
  · rw [getArticle, if_pos h]

/-- C8 witness: the three precondition failures triggered concretely with
zero queries, and a non-empty id yielding no precondition failure. -/
theorem precondition_spec_witness :
    getEvent svcW qFound pjAlice 100 "" [] =
      (.error (.precondition "eventId is required"), svcW, 0) ∧
    getProfile svcW qFound pjAlice 100 "" [] =
      (.error (.precondition "pubkey is required"), svcW, 0) ∧
    getArticle svcW qFound pjAlice 100 "" "d1" 30023 [] =
      (.error (.precondition "author, identifier and kind are required"),
        svcW, 0) ∧
    isPreconditionFailure (getEvent svcW qFound pjAlice 100 "id1" []).1 =
      false := by
  refine ⟨(precondition_spec svcW qFound pjAlice 100 "" "" "" "d1" 30023
      []).2.1 rfl,
    (precondition_spec svcW qFound pjAlice 100 "" "" "" "d1" 30023
      []).2.2.2.1 rfl,
    (precondition_spec svcW qFound pjAlice 100 "" "" "" "d1" 30023
      []).2.2.2.2.2 (Or.inl rfl),
    Bool.eq_false_iff.mpr (fun hc => ?_)⟩
  have hid := (precondition_spec svcW qFound pjAlice 100 "id1" "" "" "d1"
    30023 []).1.mp hc
  exact absurd hid (by decide)

/-! ## Claim C9 -/

/-- C9: because the precondition check tests JS falsiness (`!kind`), the
integer kind 0 — a legitimate value of the declared integer parameter — is
treated as missing: for any non-empty author and identifier, `getArticle`
with kind 0 throws the precondition error. -/
theorem getArticle_kindZero (svc : Service) (q : QueryFn) (pj : JsonParse)
    (now : Nat) (author identifier : String) (hints : List String)
    (_ha : author ≠ "") (_hi : identifier ≠ "") :
    getArticle svc q pj now author identifier 0 hints =
      (.error (.precondition "author, identifier and kind are required"),
        svc, 0) :=
  getArticle_precondition svc q pj now author identifier 0 hints
    (Or.inr (Or.inr rfl))

/-- C9 witness: concrete non-empty author and identifier with kind 0. -/
theorem getArticle_kindZero_witness :
    getArticle svcW qArt pjAlice 100 "pk1" "d1" 0 [] =
      (.error (.precondition "author, identifier and kind are required"),
        svcW, 0) :=
  getArticle_kindZero svcW qArt pjAlice 100 "pk1" "d1" [] (by decide)
    (by decide)

/-! ## Claim C10 -/

/-- C10: absence is never cached by `getProfile`: when the fetch (including
its retry) finds nothing, the call returns absent and the resulting service
state has no cache entry for the pubkey; consequently any lookup of a
pubkey with no cache entry issues at least one relay query. -/
theorem getProfile_absenceNotCached (svc : Service) (q : QueryFn)
    (pj : JsonParse) (now : Nat) (pk : String) (hints : List String) :
    (∀ s n, pk ≠ "" → getCachedProfile svc now pk = (none, s) →
      fetchWithRetry s q (buildRelayList s hints .profile) (.profileOf pk)
        s.profileTimeout = (.ok none, n) →
      getProfile svc q pj now pk hints = (.ok none, s, n) ∧
      mapGet s.profileCache pk = none) ∧
    (pk ≠ "" → mapGet svc.profileCache pk = none →
      1 ≤ (getProfile svc q pj now pk hints).2.2) := by
  constructor
  · intro s n hpk hc hf
    exact ⟨getProfile_fetchNone svc q pj now pk hints s n hpk hc hf,
      getCachedProfile_none_mapGet svc now pk s hc⟩
  · intro hpk hm
    have hc := getCachedProfile_of_mapGet_none svc now pk hm
    rcases hf : fetchWithRetry svc q (buildRelayList svc hints .profile)
        (.profileOf pk) svc.profileTimeout with ⟨res, n⟩
    have hn : 1 ≤ n := by
      have := fetchWithRetry_count_pos svc q
        (buildRelayList svc hints .profile) (.profileOf pk)
        svc.profileTimeout
      rw [hf] at this
      exact this
    rcases res with e | r
    · rw [getProfile_fetchErr svc q pj now pk hints svc e n hpk hc hf]
      exact hn
    · rcases r with _ | ev
      · rw [getProfile_fetchNone svc q pj now pk hints svc n hpk hc hf]
        exact hn
      · rw [getProfile_fetchFound svc q pj now pk hints svc ev n hpk hc hf]
        exact hn

/-- C10 witness: a full miss (`qMiss`, two queries counting the retry)
returns absent, leaves no cache entry for the pubkey, and a lookup on an
empty cache issues at least one query. -/
theorem getProfile_absenceNotCached_witness :
    (getProfile svcW qMiss pjAlice 100 "pk1" [] =
      (.ok none, svcW, 2) ∧ mapGet svcW.profileCache "pk1" = none) ∧
    1 ≤ (getProfile svcW qMiss pjAlice 100 "pk1" []).2.2 := by
  refine ⟨(getProfile_absenceNotCached svcW qMiss pjAlice 100 "pk1" []).1
      svcW 2 (by decide) rfl rfl,
    (getProfile_absenceNotCached svcW qMiss pjAlice 100 "pk1" []).2
      (by decide) rfl⟩

end Nostria
